import Mathlib

/-
Verification of the R-Auth token codec (src/services/api/auth/utils/getRAuthToken.ts).

The codec is embedded shallowly:
- JS numbers that can arise here are integers or NaN, modelled as `Option Int`
  (`none` is NaN); JS bitwise operators apply ToInt32/ToUint32, modelled with
  explicit `% 2^32` arithmetic on `Int`/`Nat`.
- The cookie read (getClientDataFromCookies), the NODE_ENV flag and the wall
  clock (Date.now) are injected as an explicit environment record, so the
  function becomes pure.
- TextEncoder is the standard UTF-8 encoder; btoa is standard base64 with
  padding over the byte buffer.
-/

namespace RAuth

/-- JS numeric values reachable in this program: an integer or NaN. -/
abbrev JSNum := Option Int

/-- ToUint32: the value modulo 2^32, as a natural number. -/
def toUint32 (x : Int) : Nat := (x % (4294967296 : Int)).toNat

/-- ToInt32: the value modulo 2^32, reinterpreted as a signed 32-bit value. -/
def toInt32 (x : Int) : Int :=
  if toUint32 x < 2147483648 then (toUint32 x : Int)
  else (toUint32 x : Int) - 4294967296

/-- ToInt32 on a possibly-NaN value: ToInt32 of NaN is 0. -/
def num32 (x : JSNum) : Int :=
  match x with
  | none => 0
  | some n => toInt32 n

/-- JS 32-bit xor: both operands through ToUint32, result as Int32. -/
def xor32 (a b : Int) : Int := toInt32 (((toUint32 a) ^^^ (toUint32 b) : Nat))

/-- JS 32-bit and: both operands through ToUint32, result as Int32. -/
def and32 (a b : Int) : Int := toInt32 (((toUint32 a) &&& (toUint32 b) : Nat))

/-- JS left shift on a possibly-NaN left operand: ToInt32, shift, wrap. -/
def shl32 (x : JSNum) (k : Nat) : Int := toInt32 (num32 x * 2 ^ k)

/-- JS arithmetic right shift: ToInt32 then floor division by 2^k
    (Int division by a positive divisor rounds toward negative infinity). -/
def shr32 (a : Int) (k : Nat) : Int := toInt32 a / 2 ^ k

/-- Value of a list of decimal digit characters. -/
def digitsVal (cs : List Char) : Nat :=
  cs.foldl (fun a c => a * 10 + (c.toNat - 48)) 0

/-- JS parseInt(s, 10): skip leading whitespace, optional sign, read the
    longest prefix of decimal digits; NaN when that prefix is empty. -/
def jsParseInt (s : String) : JSNum :=
  let cs := s.data.dropWhile (fun c => c == ' ' || c == '\t' || c == '\n' || c == '\r')
  match cs with
  | '-' :: rest =>
      let ds := rest.takeWhile Char.isDigit
      if ds.isEmpty then none else some (-(digitsVal ds : Int))
  | '+' :: rest =>
      let ds := rest.takeWhile Char.isDigit
      if ds.isEmpty then none else some ((digitsVal ds : Int))
  | other =>
      let ds := other.takeWhile Char.isDigit
      if ds.isEmpty then none else some ((digitsVal ds : Int))

/-- random = (random << 21) ^ (random << 19) ^ random, on the resolved
    timestamp (possibly NaN); every operator works at 32 bits. -/
def randomMixed (x : JSNum) : Int :=
  xor32 (xor32 (shl32 x 21) (shl32 x 19)) (num32 x)

/-- random = random * 251 + 19: plain JS number arithmetic, exact here since
    the operand is a 32-bit value, so no wraparound is applied by this line. -/
def randomFinal (x : JSNum) : Int := randomMixed x * 251 + 19

/-- b0 = (random >> 24) & 0xff. -/
def b0R (x : JSNum) : Nat := (and32 (shr32 (randomFinal x) 24) 255).toNat

/-- b1 = (random >> 16) & 0xff. -/
def b1R (x : JSNum) : Nat := (and32 (shr32 (randomFinal x) 16) 255).toNat

/-- b2 = (random >> 8) & 0xff. -/
def b2R (x : JSNum) : Nat := (and32 (shr32 (randomFinal x) 8) 255).toNat

/-- b3 = random & 0xff. -/
def b3R (x : JSNum) : Nat := (and32 (randomFinal x) 255).toNat

/-- The four seed bytes after the chain-XOR permutation
    (tmp = b0; b0 ^= b1; b1 ^= b2; b2 ^= b3; b3 ^= tmp). -/
def seedBytes (x : JSNum) : List Nat :=
  [b0R x ^^^ b1R x, b1R x ^^^ b2R x, b2R x ^^^ b3R x, b3R x ^^^ b0R x]

/-- UTF-8 encoding of one Unicode scalar value. -/
def utf8EncodeCharNat (c : Nat) : List Nat :=
  if c < 128 then [c]
  else if c < 2048 then [192 ||| (c >>> 6), 128 ||| (c &&& 63)]
  else if c < 65536 then
    [224 ||| (c >>> 12), 128 ||| ((c >>> 6) &&& 63), 128 ||| (c &&& 63)]
  else
    [240 ||| (c >>> 18), 128 ||| ((c >>> 12) &&& 63),
     128 ||| ((c >>> 6) &&& 63), 128 ||| (c &&& 63)]

/-- TextEncoder().encode: the UTF-8 bytes of a string. -/
def utf8Bytes (s : String) : List Nat :=
  s.data.flatMap (fun c => utf8EncodeCharNat c.toNat)

/-- The shape of the value returned by getClientDataFromCookies when a cookie
    is present; each field may be absent. -/
structure ClientData where
  fingerprint : Option String
  deviceModel : Option String
  os : Option String

/-- The ambient inputs of one invocation: the cookie payload (possibly null),
    whether NODE_ENV equals development, and floor(Date.now() / 1000). -/
structure Env where
  clientData : Option ClientData
  isDevelopment : Bool
  nowSeconds : Int

/-- The five optional parameters of getRAuthToken. -/
structure Args where
  deviceIdentifier : Option String
  sn : Option String
  timestamp : Option String
  deviceModel : Option String
  os : Option String

/-- JS `a || d` for an optional string a: d when a is undefined or empty. -/
def orDefault (x : Option String) (d : String) : String :=
  match x with
  | some s => if s == "" then d else s
  | none => d

/-- fingerprint as destructured from (clientData ?? \x7b\x7d). -/
def fingerprintOf (env : Env) : Option String :=
  env.clientData.bind ClientData.fingerprint

/-- finalDeviceIdentifier: the template literal prefixes web-fingerprint- to
    the fingerprint when truthy, else to deviceIdentifier || fallback. -/
def finalDeviceIdentifier (env : Env) (args : Args) : String :=
  "web-fingerprint-" ++
    (match fingerprintOf env with
     | some fp =>
         if fp == "" then orDefault args.deviceIdentifier "fb9cd3a645fe5jim" else fp
     | none => orDefault args.deviceIdentifier "fb9cd3a645fe5jim")

/-- finalSn = sn || sn-85845426. -/
def finalSn (args : Args) : String := orDefault args.sn "sn-85845426"

/-- finalTimestamp = timestamp ? parseInt(timestamp, 10)
    : floor(Date.now() / 1000). An absent or empty string is falsy; a
    non-empty string goes through parseInt, whose failure yields NaN. -/
def finalTimestamp (env : Env) (args : Args) : JSNum :=
  match args.timestamp with
  | none => some env.nowSeconds
  | some s => if s == "" then some env.nowSeconds else jsParseInt s

/-- finalDeviceModel = clientDeviceModel || deviceModel || fallback. -/
def finalDeviceModel (env : Env) (args : Args) : String :=
  orDefault (env.clientData.bind ClientData.deviceModel)
    (orDefault args.deviceModel "device_model-65656565")

/-- finalOs = clientOs || os || windows. -/
def finalOs (env : Env) (args : Args) : String :=
  orDefault (env.clientData.bind ClientData.os) (orDefault args.os "windows")

/-- Template interpolation of a JS number: NaN prints as NaN, integers in
    decimal. -/
def jsNumToString (x : JSNum) : String :=
  match x with
  | none => "NaN"
  | some n => toString n

/-- The interpolated dataString of the payload. -/
def dataString (env : Env) (args : Args) : String :=
  finalDeviceIdentifier env args ++ "|" ++ finalSn args ++ "|" ++
    jsNumToString (finalTimestamp env args) ++ "|" ++
    finalDeviceModel env args ++ "|" ++ finalOs env args ++ "|Web|3|" ++
    (if env.isDevelopment then "true" else "false")

/-- combinedData before encryption: the 4 seed bytes followed by the UTF-8
    bytes of the dataString. -/
def plaintext (env : Env) (args : Args) : List Nat :=
  seedBytes (finalTimestamp env args) ++ utf8Bytes (dataString env args)

/-- The fixed 64-byte XOR key. -/
def rKey : List Nat :=
  [0x09, 0x9d, 0xc8, 0x96, 0x3f, 0x9b, 0x5e, 0x0c, 0xce, 0xc8, 0xa5, 0xef,
   0xa4, 0x21, 0xbe, 0x7c, 0xb0, 0xc2, 0xb0, 0xc9, 0xd5, 0x5c, 0xcc, 0x33,
   0x79, 0x52, 0xe7, 0x83, 0x3c, 0xd2, 0x79, 0xd3, 0x49, 0xc0, 0xf9, 0x70,
   0xe9, 0xa6, 0x34, 0x42, 0x2b, 0x13, 0xfb, 0xd0, 0x26, 0x34, 0xf2, 0xd8,
   0x86, 0xb5, 0x72, 0xd5, 0x13, 0x74, 0x5d, 0xc5, 0xb2, 0xaa, 0x4d, 0x68,
   0x3f, 0x1a, 0xaa, 0x6e]

/-- The encryption loop: for i from the given start, for the given number of
    iterations, data[i] = data[i] ^ key[i % keylen] ^ data[i % 4]; the store
    into a Uint8Array keeps the low 8 bits. -/
def xorLoop : List Nat → Nat → Nat → List Nat
  | data, _, 0 => data
  | data, i, fuel + 1 =>
      xorLoop
        (data.set i
          ((((data.getD i 0) ^^^ (rKey.getD (i % rKey.length) 0)) ^^^
            (data.getD (i % 4) 0)) % 256))
        (i + 1) fuel

/-- The cipher stage: the loop runs for i = 4 .. datalen - 1. -/
def cipherEncode (data : List Nat) : List Nat := xorLoop data 4 (data.length - 4)

/-- The standard base64 alphabet. -/
def base64Alphabet : List Char :=
  "ABCDEFGHIJKLMNOPQRSTUVWXYZabcdefghijklmnopqrstuvwxyz0123456789+/".data

/-- Character of one 6-bit group. -/
def b64c (n : Nat) : Char := base64Alphabet.getD n 'A'

/-- btoa: standard base64 with = padding, 3 bytes to 4 characters. -/
def base64Chars : List Nat → List Char
  | [] => []
  | [a] => [b64c (a >>> 2), b64c ((a &&& 3) <<< 4), '=', '=']
  | [a, b] =>
      [b64c (a >>> 2), b64c (((a &&& 3) <<< 4) ||| (b >>> 4)),
       b64c ((b &&& 15) <<< 2), '=']
  | a :: b :: c :: rest =>
      [b64c (a >>> 2), b64c (((a &&& 3) <<< 4) ||| (b >>> 4)),
       b64c (((b &&& 15) <<< 2) ||| (c >>> 6)), b64c (c &&& 63)] ++
        base64Chars rest

/-- base64 of a byte list, as a string. -/
def base64Encode (l : List Nat) : String := String.mk (base64Chars l)

/-- The whole codec: seed, payload, cipher, base64. -/
def getRAuthToken (env : Env) (args : Args) : String :=
  base64Encode (cipherEncode (plaintext env args))

/-- Spec-side description of the payload text: the field list joined with the
    pipe delimiter. -/
def joinPipe : List String → String
  | [] => ""
  | [s] => s
  | s :: t :: rest => s ++ "|" ++ joinPipe (t :: rest)

/-- Spec-side description of the seed word: the computation
    (((t shl 21) xor (t shl 19) xor t) * 251 + 19) wrapped to 32 bits at
    every step, as an unsigned 32-bit pattern. -/
def wrappedSeed (t : Int) : Nat :=
  ((((toUint32 t * 2097152) % 4294967296) ^^^
    ((toUint32 t * 524288) % 4294967296) ^^^ toUint32 t) * 251 + 19) %
    4294967296

/-- A concrete environment: no cookie, production build, wall clock 100. -/
def envA : Env := ⟨none, false, 100⟩

/-- Concrete arguments used by several witnesses. -/
def argsA : Args := ⟨some "test", some "sn-1", some "0", some "model-1", some "linux"⟩

/-- Arguments with an unparsable timestamp text. -/
def argsNaN : Args := ⟨none, none, some "abc", none, none⟩

/-- The arguments of the spec scenario for timestamp 0. -/
def argsScenario : Args :=
  ⟨some "web-fingerprint-test", some "sn-1", some "0", some "model-1", some "linux"⟩

theorem toUint32_lt (x : Int) : toUint32 x < 4294967296 := by
  simp only [toUint32]; omega

theorem toUint32_toInt32 (x : Int) : toUint32 (toInt32 x) = toUint32 x := by
  simp only [toInt32, toUint32]; split <;> omega

theorem toUint32_natCast (n : Nat) : toUint32 (n : Int) = n % 4294967296 := by
  simp only [toUint32]; omega

theorem toUint32_xor32 (a b : Int) :
    toUint32 (xor32 a b) = toUint32 a ^^^ toUint32 b := by
  have hx : toUint32 a ^^^ toUint32 b < 4294967296 := by
    have := Nat.xor_lt_two_pow (n := 32) (by simpa using toUint32_lt a)
      (by simpa using toUint32_lt b)
    simpa using this
  rw [xor32, toUint32_toInt32, toUint32_natCast, Nat.mod_eq_of_lt hx]

theorem toInt32_natCast_small (n : Nat) (h : n < 2147483648) :
    toInt32 (n : Int) = (n : Int) := by
  simp only [toInt32, toUint32]; split <;> omega

/-- The witness environment and arguments resolve their timestamp to 0. -/
theorem finalTimestamp_envA_argsA : finalTimestamp envA argsA = some 0 := by decide

/-- C2: for the input timestamp = 0, the seed derivation (shift-xor mixing,
    multiply-add, big-endian byte extraction, chain-XOR permutation) produces
    exactly the byte sequence [0, 0, 19, 19]. -/
theorem seed_at_zero : seedBytes (some 0) = [0, 0, 19, 19] := by decide

/-- C7: the codec is a pure function of its arguments and of the injected
    environment (cookie data, development flag, wall clock): two invocations
    with those held fixed return the identical token string. -/
theorem token_deterministic (e1 e2 : Env) (a1 a2 : Args)
    (he : e1 = e2) (ha : a1 = a2) : getRAuthToken e1 a1 = getRAuthToken e2 a2 := by
  subst he; subst ha; rfl

theorem token_deterministic_witness :
    getRAuthToken envA argsA = getRAuthToken envA argsA :=
  token_deterministic envA envA argsA argsA rfl rfl

/-- C8: two invocations that agree on the timestamp argument and on the wall
    clock give plaintext buffers with identical first 4 bytes, whatever the
    other fields are: the seed depends on the resolved timestamp only. -/
theorem seed_isolation (e1 e2 : Env) (a1 a2 : Args)
    (ht : a1.timestamp = a2.timestamp) (hn : e1.nowSeconds = e2.nowSeconds) :
    (plaintext e1 a1).take 4 = (plaintext e2 a2).take 4 := by
  have h : finalTimestamp e1 a1 = finalTimestamp e2 a2 := by
    simp only [finalTimestamp, ht, hn]
  have hl : ∀ x : JSNum, (seedBytes x).length = 4 := fun x => rfl
  simp only [plaintext, List.take_left' (hl _), h]

theorem seed_isolation_witness :
    (plaintext ⟨none, false, 100⟩ ⟨some "a", some "s1", some "7", some "m1", some "o1"⟩).take 4 =
      (plaintext ⟨some ⟨some "fp0", some "cm", some "co"⟩, true, 100⟩
        ⟨some "b", some "s2", some "7", some "m2", some "o2"⟩).take 4 :=
  seed_isolation _ _ _ _ rfl rfl

/-- C10: the device-identifier field always begins with web-fingerprint-;
    a truthy cookie fingerprint is used (the parameter is ignored), otherwise
    the parameter, otherwise the literal fb9cd3a645fe5jim. -/
theorem device_identifier_shape (env : Env) (args : Args) :
    (∃ rest, finalDeviceIdentifier env args = "web-fingerprint-" ++ rest) ∧
    (∀ fp, fingerprintOf env = some fp → fp ≠ "" →
      finalDeviceIdentifier env args = "web-fingerprint-" ++ fp) ∧
    ((fingerprintOf env = none ∨ fingerprintOf env = some "") →
      ∀ di, args.deviceIdentifier = some di → di ≠ "" →
        finalDeviceIdentifier env args = "web-fingerprint-" ++ di) ∧
    ((fingerprintOf env = none ∨ fingerprintOf env = some "") →
      (args.deviceIdentifier = none ∨ args.deviceIdentifier = some "") →
      finalDeviceIdentifier env args = "web-fingerprint-" ++ "fb9cd3a645fe5jim") := by
  refine ⟨⟨_, rfl⟩, ?_, ?_, ?_⟩
  · intro fp hfp hne
    simp only [finalDeviceIdentifier, hfp]
    rw [if_neg (by simpa using hne)]
  · rintro (hf | hf) di hdi hne
    · simp only [finalDeviceIdentifier, hf, orDefault, hdi]
      rw [if_neg (by simpa using hne)]
    · simp only [finalDeviceIdentifier, hf, orDefault, hdi]
      rw [if_pos (by decide), if_neg (by simpa using hne)]
  · rintro (hf | hf) (hd | hd) <;>
      simp only [finalDeviceIdentifier, hf, orDefault, hd] <;> rfl

theorem device_identifier_shape_witness :
    fingerprintOf ⟨some ⟨some "fp0", none, none⟩, false, 100⟩ = some "fp0" ∧
    "fp0" ≠ "" ∧
    finalDeviceIdentifier ⟨some ⟨some "fp0", none, none⟩, false, 100⟩
      ⟨some "ignored", none, none, none, none⟩ = "web-fingerprint-" ++ "fp0" :=
  ⟨rfl, by decide,
    (device_identifier_shape ⟨some ⟨some "fp0", none, none⟩, false, 100⟩
      ⟨some "ignored", none, none, none, none⟩).2.1 "fp0" rfl (by decide)⟩

/-- C3 counterexample: with wall clock 100 and the supplied unparsable
    timestamp text abc, the field string carries NaN, not the wall-clock
    value 100: the current time is not substituted on parse failure. -/
theorem timestamp_nan_cex :
    dataString envA argsNaN =
      "web-fingerprint-fb9cd3a645fe5jim|sn-85845426|NaN|device_model-65656565|windows|Web|3|false" ∧
    dataString envA argsNaN ≠
      "web-fingerprint-fb9cd3a645fe5jim|sn-85845426|100|device_model-65656565|windows|Web|3|false" := by
  constructor <;> decide

/-- C3 amended: the wall clock is substituted only for an absent or empty
    timestamp argument; a supplied non-empty text that does not parse yields
    NaN, which makes the seed the one computed from 0 and puts the literal
    NaN in the field string; no error is raised (the codec is total). -/
theorem timestamp_nan_amended (env : Env) (args : Args) (s : String)
    (hs : args.timestamp = some s) (hne : s ≠ "") (hp : jsParseInt s = none) :
    finalTimestamp env args = none ∧
    seedBytes (finalTimestamp env args) = seedBytes (some 0) ∧
    jsNumToString (finalTimestamp env args) = "NaN" := by
  have h : finalTimestamp env args = none := by
    simp only [finalTimestamp, hs]
    rw [if_neg (by simpa using hne)]
    exact hp
  refine ⟨h, ?_, ?_⟩ <;> rw [h] <;> decide

theorem timestamp_nan_amended_witness :
    argsNaN.timestamp = some "abc" ∧ "abc" ≠ "" ∧ jsParseInt "abc" = none ∧
    (finalTimestamp envA argsNaN = none ∧
     seedBytes (finalTimestamp envA argsNaN) = seedBytes (some 0) ∧
     jsNumToString (finalTimestamp envA argsNaN) = "NaN") :=
  ⟨rfl, by decide, by decide,
    timestamp_nan_amended envA argsNaN "abc" rfl (by decide) (by decide)⟩

/-- C4 counterexample: with timestamp 0, deviceIdentifier
    web-fingerprint-test, serialNumber sn-1, deviceModel model-1, os linux
    and a production build, the plaintext buffer is NOT the seed followed by
    the UTF-8 bytes of the claimed field string, because the codec prefixes
    the supplied identifier with web-fingerprint- again. -/
theorem scenario_cex :
    plaintext envA argsScenario ≠
      seedBytes (some 0) ++
        utf8Bytes "web-fingerprint-test|sn-1|0|model-1|linux|Web|3|false" := by
  decide

theorem xor_lt_256 {u v : Nat} (hu : u < 256) (hv : v < 256) : u ^^^ v < 256 := by
  have h8 : (256 : Nat) = 2 ^ 8 := by norm_num
  rw [h8] at hu hv ⊢
  exact Nat.xor_lt_two_pow hu hv

theorem or_lt_256 {u v : Nat} (hu : u < 256) (hv : v < 256) : u ||| v < 256 := by
  have h8 : (256 : Nat) = 2 ^ 8 := by norm_num
  rw [h8] at hu hv ⊢
  exact Nat.or_lt_two_pow hu hv

theorem getD_set_eq (l : List Nat) (i j v : Nat) :
    (l.set i v).getD j 0 = if i = j ∧ j < l.length then v else l.getD j 0 := by
  simp only [List.getD_eq_getElem?_getD, List.getElem?_set]
  by_cases hij : i = j
  · subst hij
    by_cases hl : i < l.length
    · simp [hl]
    · have hnone : l[i]? = none := List.getElem?_eq_none (by omega)
      simp [hl, hnone]
  · simp [hij]

theorem getD_lt_of_forall {l : List Nat} (h : ∀ b ∈ l, b < 256) (m : Nat) :
    l.getD m 0 < 256 := by
  rcases Nat.lt_or_ge m l.length with hm | hm
  · rw [List.getD_eq_getElem?_getD, List.getElem?_eq_getElem hm]
    exact h _ (List.getElem_mem hm)
  · rw [List.getD_eq_getElem?_getD, List.getElem?_eq_none hm]
    norm_num

theorem rKey_getD_lt (m : Nat) : rKey.getD m 0 < 256 :=
  getD_lt_of_forall (by decide) m

theorem and32_255_toNat_lt (a : Int) : (and32 a 255).toNat < 256 := by
  have h2 : toUint32 255 = 255 := by simp only [toUint32]; omega
  have h : toUint32 a &&& toUint32 255 < 256 := by
    rw [h2]
    exact Nat.lt_of_le_of_lt Nat.and_le_right (by norm_num)
  rw [and32, toInt32_natCast_small _ (by omega)]
  omega

theorem seedBytes_lt (x : JSNum) : ∀ b ∈ seedBytes x, b < 256 := by
  intro b hb
  simp only [seedBytes, List.mem_cons, List.not_mem_nil, or_false] at hb
  rcases hb with h | h | h | h <;> subst h <;>
    exact xor_lt_256 (and32_255_toNat_lt _) (and32_255_toNat_lt _)

theorem char_toNat_lt (c : Char) : c.toNat < 1114112 := by
  show c.val.toNat < 1114112
  rcases c.valid with h | h <;> omega

theorem utf8EncodeCharNat_lt (c : Nat) (hc : c < 1114112) :
    ∀ b ∈ utf8EncodeCharNat c, b < 256 := by
  intro b hb
  have e6 : c >>> 6 = c / 64 := by rw [Nat.shiftRight_eq_div_pow]
  have e12 : c >>> 12 = c / 4096 := by rw [Nat.shiftRight_eq_div_pow]
  have e18 : c >>> 18 = c / 262144 := by rw [Nat.shiftRight_eq_div_pow]
  have hand : ∀ m : Nat, m &&& 63 < 256 :=
    fun m => Nat.lt_of_le_of_lt Nat.and_le_right (by norm_num)
  simp only [utf8EncodeCharNat] at hb
  split_ifs at hb with h1 h2 h3 <;>
    simp only [List.mem_cons, List.not_mem_nil, or_false] at hb
  · subst hb; omega
  · rcases hb with rfl | rfl
    · exact or_lt_256 (by norm_num) (by rw [e6]; omega)
    · exact or_lt_256 (by norm_num) (hand _)
  · rcases hb with rfl | rfl | rfl
    · exact or_lt_256 (by norm_num) (by rw [e12]; omega)
    · exact or_lt_256 (by norm_num) (hand _)
    · exact or_lt_256 (by norm_num) (hand _)
  · rcases hb with rfl | rfl | rfl | rfl
    · exact or_lt_256 (by norm_num) (by rw [e18]; omega)
    · exact or_lt_256 (by norm_num) (hand _)
    · exact or_lt_256 (by norm_num) (hand _)
    · exact or_lt_256 (by norm_num) (hand _)

theorem utf8Bytes_lt (s : String) : ∀ b ∈ utf8Bytes s, b < 256 := by
  intro b hb
  simp only [utf8Bytes, List.mem_flatMap] at hb
  obtain ⟨c, _, hbc⟩ := hb
  exact utf8EncodeCharNat_lt c.toNat (char_toNat_lt c) b hbc

theorem plaintext_lt (env : Env) (args : Args) : ∀ b ∈ plaintext env args, b < 256 := by
  intro b hb
  simp only [plaintext, List.mem_append] at hb
  rcases hb with h | h
  · exact seedBytes_lt _ b h
  · exact utf8Bytes_lt _ b h

theorem plaintext_length (env : Env) (args : Args) :
    (plaintext env args).length = 4 + (utf8Bytes (dataString env args)).length := by
  simp [plaintext, seedBytes]
  omega

theorem plaintext_getD_lt4 (env : Env) (args : Args) (j : Nat) (hj : j < 4) :
    (plaintext env args).getD j 0 = (seedBytes (finalTimestamp env args)).getD j 0 := by
  have hlen : j < (seedBytes (finalTimestamp env args)).length := by
    show j < 4
    exact hj
  simp only [plaintext, List.getD_eq_getElem?_getD]
  rw [List.getElem?_append_left hlen]

theorem xorLoop_length (fuel : Nat) : ∀ (data : List Nat) (i : Nat),
    (xorLoop data i fuel).length = data.length := by
  induction fuel with
  | zero => intro data i; rfl
  | succ n ih =>
    intro data i
    simp only [xorLoop]
    rw [ih, List.length_set]

theorem xorLoop_getD (fuel : Nat) : ∀ (data : List Nat) (i : Nat), 4 ≤ i → ∀ j : Nat,
    (xorLoop data i fuel).getD j 0 =
      if i ≤ j ∧ j < i + fuel ∧ j < data.length then
        (((data.getD j 0) ^^^ (rKey.getD (j % rKey.length) 0)) ^^^
          (data.getD (j % 4) 0)) % 256
      else data.getD j 0 := by
  induction fuel with
  | zero =>
    intro data i h4 j
    rw [if_neg (by omega)]
    rfl
  | succ n ih =>
    intro data i h4 j
    simp only [xorLoop]
    rw [ih _ (i + 1) (by omega) j]
    simp only [List.length_set]
    by_cases hji : j = i
    · subst hji
      rw [if_neg (by omega), getD_set_eq]
      by_cases hl : j < data.length
      · rw [if_pos ⟨rfl, hl⟩, if_pos ⟨Nat.le_refl j, by omega, hl⟩]
      · rw [if_neg (by omega), if_neg (by omega)]
    · have ha : ¬(i = j ∧ j < data.length) := by omega
      have hb : ¬(i = j % 4 ∧ j % 4 < data.length) := by omega
      simp only [getD_set_eq, if_neg ha, if_neg hb]
      split_ifs <;> first | rfl | omega

/-- C1: on every plaintext buffer the pipeline produces, the cipher stage
    leaves bytes 0 to 3 (the seed) unchanged and replaces every byte at an
    index i from 4 to length - 1 with
    plaintext[i] xor key[i mod 64] xor seed[i mod 4]. -/
theorem cipher_formula (env : Env) (args : Args) (j : Nat) :
    (j < 4 → (cipherEncode (plaintext env args)).getD j 0 =
      (seedBytes (finalTimestamp env args)).getD j 0) ∧
    (4 ≤ j → j < (plaintext env args).length →
      (cipherEncode (plaintext env args)).getD j 0 =
        ((plaintext env args).getD j 0 ^^^ rKey.getD (j % 64) 0) ^^^
          (seedBytes (finalTimestamp env args)).getD (j % 4) 0) := by
  have hx := xorLoop_getD ((plaintext env args).length - 4) (plaintext env args) 4
    (Nat.le_refl 4) j
  constructor
  · intro hj
    rw [cipherEncode, hx, if_neg (by omega)]
    exact plaintext_getD_lt4 env args j hj
  · intro h4 hlen
    rw [cipherEncode, hx, if_pos ⟨h4, by omega, hlen⟩]
    have hkey : rKey.length = 64 := rfl
    rw [hkey]
    have hv : (((plaintext env args).getD j 0 ^^^ rKey.getD (j % 64) 0) ^^^
        (plaintext env args).getD (j % 4) 0) < 256 :=
      xor_lt_256 (xor_lt_256 (getD_lt_of_forall (plaintext_lt env args) j)
        (rKey_getD_lt (j % 64))) (getD_lt_of_forall (plaintext_lt env args) (j % 4))
    rw [Nat.mod_eq_of_lt hv, plaintext_getD_lt4 env args (j % 4) (Nat.mod_lt _ (by norm_num))]

theorem cipher_formula_witness :
    4 ≤ 5 ∧ 5 < (plaintext envA argsA).length ∧
    (cipherEncode (plaintext envA argsA)).getD 5 0 =
      ((plaintext envA argsA).getD 5 0 ^^^ rKey.getD (5 % 64) 0) ^^^
        (seedBytes (finalTimestamp envA argsA)).getD (5 % 4) 0 :=
  ⟨by norm_num, by decide, (cipher_formula envA argsA 5).2 (by norm_num) (by decide)⟩

/-- C4 amended: for those same inputs the plaintext buffer equals the seed
    bytes [0, 0, 19, 19] followed by the UTF-8 bytes of
    web-fingerprint-web-fingerprint-test|sn-1|0|model-1|linux|Web|3|false,
    the supplied identifier having been prefixed once more. -/
theorem scenario_amended :
    plaintext envA argsScenario =
      seedBytes (some 0) ++
        utf8Bytes "web-fingerprint-web-fingerprint-test|sn-1|0|model-1|linux|Web|3|false" ∧
    seedBytes (some 0) = [0, 0, 19, 19] := by
  constructor <;> decide

theorem cipherEncode_length (data : List Nat) :
    (cipherEncode data).length = data.length :=
  xorLoop_length _ data 4

theorem base64Chars_length (l : List Nat) :
    (base64Chars l).length = (l.length + 2) / 3 * 4 := by
  induction l using base64Chars.induct
  all_goals simp only [base64Chars, List.length_append, List.length_cons, List.length_nil, *]
  all_goals omega

/-- C9: the token length in characters is ceil((4 + utf8-length of the field
    string) / 3) * 4, written with the identity ceil(m / 3) = (m + 2) / 3 on
    naturals; padding is part of the base64 definition. -/
theorem token_length (env : Env) (args : Args) :
    (getRAuthToken env args).length =
      (4 + (utf8Bytes (dataString env args)).length + 2) / 3 * 4 := by
  show (base64Chars (cipherEncode (plaintext env args))).length = _
  rw [base64Chars_length, cipherEncode_length, plaintext_length]

theorem dataString_eq_joinPipe (env : Env) (args : Args) (n : Int)
    (ht : finalTimestamp env args = some n) :
    dataString env args =
      joinPipe [finalDeviceIdentifier env args, finalSn args, toString n,
        finalDeviceModel env args, finalOs env args, "Web", "3",
        if env.isDevelopment then "true" else "false"] := by
  have h37 : ("|Web|3|" : String) = "|" ++ "Web" ++ "|" ++ "3" ++ "|" := by decide
  simp only [dataString, joinPipe, ht, jsNumToString, h37, String.append_assoc]

/-- C5: for every resolved input, bytes 0 to 3 of the plaintext buffer are
    exactly the 4 seed bytes, and bytes 4 onward are exactly the UTF-8 bytes
    of the resolved fields joined by the pipe character in the fixed order
    deviceIdentifier, serialNumber, decimal timestamp, deviceModel, os, the
    literal Web, the literal 3, and true or false for the development flag,
    with no extra separators or terminators. -/
theorem payload_layout (env : Env) (args : Args) (n : Int)
    (ht : finalTimestamp env args = some n) :
    (plaintext env args).take 4 = seedBytes (some n) ∧
    (plaintext env args).drop 4 =
      utf8Bytes (joinPipe [finalDeviceIdentifier env args, finalSn args, toString n,
        finalDeviceModel env args, finalOs env args, "Web", "3",
        if env.isDevelopment then "true" else "false"]) := by
  have hl : (seedBytes (finalTimestamp env args)).length = 4 := rfl
  constructor
  · rw [plaintext, List.take_left' hl, ht]
  · rw [plaintext, List.drop_left' hl, dataString_eq_joinPipe env args n ht]

theorem payload_layout_witness :
    finalTimestamp envA argsA = some 0 ∧
    ((plaintext envA argsA).take 4 = seedBytes (some 0) ∧
     (plaintext envA argsA).drop 4 =
       utf8Bytes (joinPipe [finalDeviceIdentifier envA argsA, finalSn argsA,
         toString (0 : Int), finalDeviceModel envA argsA, finalOs envA argsA,
         "Web", "3", if envA.isDevelopment then "true" else "false"])) :=
  ⟨by decide, payload_layout envA argsA 0 (by decide)⟩

theorem toUint32_mul_add (a : Int) :
    toUint32 (a * 251 + 19) = (toUint32 a * 251 + 19) % 4294967296 := by
  simp only [toUint32]; omega

theorem toUint32_shl21 (t : Int) :
    toUint32 (toInt32 t * 2097152) = toUint32 t * 2097152 % 4294967296 := by
  simp only [toInt32, toUint32]
  split <;> omega

theorem toUint32_shl19 (t : Int) :
    toUint32 (toInt32 t * 524288) = toUint32 t * 524288 % 4294967296 := by
  simp only [toInt32, toUint32]
  split <;> omega

theorem and32_byte (r : Int) : (and32 r 255).toNat = toUint32 r % 256 := by
  have h2 : toUint32 255 = 255 := by simp only [toUint32]; omega
  have hand : toUint32 r &&& 255 = toUint32 r % 256 := by
    have h := Nat.and_pow_two_sub_one_eq_mod (toUint32 r) 8
    norm_num at h
    exact h
  rw [and32, h2, hand, toInt32_natCast_small _ (by omega)]
  omega

theorem shr_byte24 (r : Int) :
    (and32 (shr32 r 24) 255).toNat = toUint32 r / 16777216 % 256 := by
  rw [and32_byte]
  have e : (2 : Int) ^ 24 = 16777216 := by norm_num
  rw [shr32, e]
  simp only [toInt32, toUint32]
  split <;> omega

theorem shr_byte16 (r : Int) :
    (and32 (shr32 r 16) 255).toNat = toUint32 r / 65536 % 256 := by
  rw [and32_byte]
  have e : (2 : Int) ^ 16 = 65536 := by norm_num
  rw [shr32, e]
  simp only [toInt32, toUint32]
  split <;> omega

theorem shr_byte8 (r : Int) :
    (and32 (shr32 r 8) 255).toNat = toUint32 r / 256 % 256 := by
  rw [and32_byte]
  have e : (2 : Int) ^ 8 = 256 := by norm_num
  rw [shr32, e]
  simp only [toInt32, toUint32]
  split <;> omega

theorem randomFinal_toUint32 (t : Int) :
    toUint32 (randomFinal (some t)) = wrappedSeed t := by
  have h21 : toUint32 (shl32 (some t) 21) = toUint32 t * 2097152 % 4294967296 := by
    show toUint32 (toInt32 (toInt32 t * 2 ^ 21)) = _
    rw [toUint32_toInt32]
    have e : (2 : Int) ^ 21 = 2097152 := by norm_num
    rw [e, toUint32_shl21]
  have h19 : toUint32 (shl32 (some t) 19) = toUint32 t * 524288 % 4294967296 := by
    show toUint32 (toInt32 (toInt32 t * 2 ^ 19)) = _
    rw [toUint32_toInt32]
    have e : (2 : Int) ^ 19 = 524288 := by norm_num
    rw [e, toUint32_shl19]
  have hnum : toUint32 (num32 (some t)) = toUint32 t := toUint32_toInt32 t
  have hm : toUint32 (randomMixed (some t)) =
      ((toUint32 t * 2097152) % 4294967296) ^^^
        ((toUint32 t * 524288) % 4294967296) ^^^ toUint32 t := by
    rw [randomMixed, toUint32_xor32, toUint32_xor32, h21, h19, hnum]
  rw [randomFinal, toUint32_mul_add, hm]
  rfl

/-- C6: for every integer timestamp, the four bytes b0..b3 the code extracts
    (the multiply-add is done on exact numbers, the wrapping happening only
    inside the shift-and-mask extraction) coincide with the big-endian bytes
    of the fully 32-bit-wrapped value (((t shl 21) xor (t shl 19) xor t)
    * 251 + 19). -/
theorem extracted_bytes_wrap32 (t : Int) :
    [b0R (some t), b1R (some t), b2R (some t), b3R (some t)] =
      [wrappedSeed t / 16777216 % 256, wrappedSeed t / 65536 % 256,
       wrappedSeed t / 256 % 256, wrappedSeed t % 256] := by
  rw [b0R, b1R, b2R, b3R, shr_byte24, shr_byte16, shr_byte8, and32_byte,
    randomFinal_toUint32]

end RAuth
